import Mathlib

/-!
Verification of the factorysim core: the `Resource` saturating value type,
the append-only entity graph with position-derived adjacency, and the
single-pass in-place per-tick update rule, shallowly embedded from
`src/main.rs`.

Machine integers (`u8`) are modelled as `Nat` magnitudes together with the
explicit saturation bound 255; Rust panics (the `Cannot mix Resource
variants` aborts) are modelled as `Option.none`.
-/

/-- Maximum representable magnitude of a holding (`u8::MAX`). -/
def u8MAX : Nat := 255

/-- `u8::saturating_add` on magnitudes already in `0..=255`. -/
def satAdd (a b : Nat) : Nat := min (a + b) u8MAX

/-- `u8::saturating_sub` on magnitudes (truncated subtraction). -/
def satSub (a b : Nat) : Nat := a - b

/-- `enum Resource { A(u8), B(u8) }` from the source, with the `u8`
magnitude embedded as a `Nat`. -/
inductive Resource where
  | A : Nat → Resource
  | B : Nat → Resource
deriving Repr, DecidableEq, BEq

/-- The magnitude carried by a `Resource`, kind erased. -/
def Resource.mag : Resource → Nat
  | .A n => n
  | .B n => n

/-- Whether two `Resource` values carry the same kind (enum variant). -/
def Resource.sameKind : Resource → Resource → Bool
  | .A _, .A _ => true
  | .B _, .B _ => true
  | _, _ => false

/-- The zero of the same kind as the given value. -/
def Resource.zeroOfKind : Resource → Resource
  | .A _ => .A 0
  | .B _ => .B 0

/-- `impl Add for Resource`: saturating addition of same-kind values;
the cross-kind `panic!("Cannot mix Resource variants")` is `none`. -/
def Resource.add : Resource → Resource → Option Resource
  | .A s, .A o => some (.A (satAdd s o))
  | .B s, .B o => some (.B (satAdd s o))
  | _, _ => none

/-- `impl Sub for Resource`: saturating subtraction of same-kind values;
the cross-kind `panic!("Cannot mix Resource variants")` is `none`. -/
def Resource.sub : Resource → Resource → Option Resource
  | .A s, .A o => some (.A (satSub s o))
  | .B s, .B o => some (.B (satSub s o))
  | _, _ => none

/-- `#[derive(PartialOrd)]` on `enum Resource`: variants are compared by
declaration order first (`A` before `B`); equal variants compare their
`u8` magnitudes.  The derived `partial_cmp` never returns `None` for this
enum, but its type is still `Option Ordering`. -/
def Resource.pcmp : Resource → Resource → Option Ordering
  | .A s, .A o => some (compare s o)
  | .B s, .B o => some (compare s o)
  | .A _, .B _ => some .lt
  | .B _, .A _ => some .gt

/-- Rust `>=` via the derived `PartialOrd`:
`matches!(partial_cmp, Some(Greater | Equal))`. -/
def Resource.ge (a b : Resource) : Bool :=
  match a.pcmp b with
  | some .gt => true
  | some .eq => true
  | _ => false

/-- Grid coordinates, Rust `type Position = (isize, isize)`. -/
abbrev Position := Int × Int

/-- Default used to read the parallel arrays; in-range reads never see it. -/
def posD : Position := (0, 0)

/-- Existing entity at `q` lies up or left of a new entity at `p`
(the `up`/`left` checks in `Entities::insert`). -/
def upCond (p q : Position) : Bool :=
  decide (q = (p.1, p.2 - 1)) || decide (q = (p.1 - 1, p.2))

/-- Existing entity at `q` lies down or right of a new entity at `p`
(the `down`/`right` checks in `Entities::insert`). -/
def downCond (p q : Position) : Bool :=
  decide (q = (p.1, p.2 + 1)) || decide (q = (p.1 + 1, p.2))

/-- The parallel-array entity store (`struct Entities`). -/
structure Entities where
  wants : List Resource
  has : List Resource
  position : List Position
  visible : List Bool
  upstream : List (List Nat)
  downstream : List (List Nat)
deriving Repr, DecidableEq

/-- `Entities::new()` (capacity hints are irrelevant to semantics). -/
def Entities.new : Entities := ⟨[], [], [], [], [], []⟩

/-- The upstream list computed for a new entity at `p`: every existing
index `i` (in increasing order) whose position is up or left of `p`. -/
def newUpstream (e : Entities) (p : Position) : List Nat :=
  (List.range e.position.length).filter (fun i => upCond p (e.position.getD i posD))

/-- The downstream list computed for a new entity at `p`: every existing
index `i` (in increasing order) whose position is down or right of `p`. -/
def newDownstream (e : Entities) (p : Position) : List Nat :=
  (List.range e.position.length).filter (fun i => downCond p (e.position.getD i posD))

/-- `Entities::insert(wants, has, position, visible)`: scan existing
entities in index order, record the new entity's backward edges, push the
new index onto matching existing entities' lists, then append the new
entity's fields. -/
def Entities.insert (e : Entities) (w h : Resource) (p : Position) (v : Bool) : Entities :=
  let len := e.position.length
  { wants := e.wants ++ [w]
    has := e.has ++ [h]
    position := e.position ++ [p]
    visible := e.visible ++ [v]
    upstream :=
      ((List.range len).map (fun i =>
        if downCond p (e.position.getD i posD) then e.upstream.getD i [] ++ [len]
        else e.upstream.getD i [])) ++ [newUpstream e p]
    downstream :=
      ((List.range len).map (fun i =>
        if upCond p (e.position.getD i posD) then e.downstream.getD i [] ++ [len]
        else e.downstream.getD i [])) ++ [newDownstream e p] }

/-- One call's worth of arguments to `Entities::insert`. -/
structure InsertArgs where
  wants : Resource
  has : Resource
  pos : Position
  vis : Bool

/-- The entity store obtained from `Entities::new()` by a sequence of
`insert` calls. -/
def buildEntities (l : List InsertArgs) : Entities :=
  l.foldl (fun e a => e.insert a.wants a.has a.pos a.vis) Entities.new

/-- Default resource used to read the parallel arrays; in-range reads
never see it. -/
def resD : Resource := Resource.A 0

/-- One iteration of the inner loop of `Entities::update` for sink `i`
and upstream neighbor `u`, acting on the `has` array.  Mutations are
sequenced exactly as in the source; a kind-mismatch panic is `none`. -/
def transferStep (wants : List Resource) (i : Nat) (has : List Resource) (u : Nat) :
    Option (List Resource) :=
  if (has.getD i resD != Resource.A u8MAX) = true then
    if (has.getD u resD).ge (wants.getD i resD) = true then do
      let a ← Resource.add (has.getD i resD) (wants.getD i resD)
      let has1 := has.set i a
      let s ← Resource.sub (has1.getD u resD) (wants.getD i resD)
      pure (has1.set u s)
    else do
      let remainder := has.getD u resD
      let a ← Resource.add (has.getD i resD) remainder
      pure ((has.set i a).set u (Resource.A 0))
  else
    pure has

/-- The processing of one sink `i` during a tick: fold `transferStep`
over `i`'s upstream list in recorded order. -/
def updateEntity (wants : List Resource) (ups : List Nat) (i : Nat) (has : List Resource) :
    Option (List Resource) :=
  ups.foldlM (fun h u => transferStep wants i h u) has

/-- `Entities::update()`: single in-place pass over entity indices in
increasing order; only the `has` array is written. -/
def Entities.update (e : Entities) : Option Entities :=
  ((List.range e.position.length).foldlM
    (fun h i => updateEntity e.wants (e.upstream.getD i []) i h) e.has).map
    (fun h => { e with has := h })

/-- The reference scenario seeded by `setup_chain`. -/
def scenarioInserts : List InsertArgs :=
  [⟨Resource.A 1, Resource.A 100, (1, 1), true⟩,
   ⟨Resource.A 1, Resource.A 255, (1, 2), true⟩,
   ⟨Resource.A 2, Resource.A 64, (2, 2), true⟩,
   ⟨Resource.A 2, Resource.A 192, (3, 2), true⟩,
   ⟨Resource.A 5, Resource.A 0, (3, 3), true⟩]

/-! ### Helper lemmas about list reads and writes -/

lemma getD_set_self {α : Type} (l : List α) (i : Nat) (a d : α) (h : i < l.length) :
    (l.set i a).getD i d = a := by
  rw [List.getD_eq_getElem _ _ (by simpa using h)]
  exact List.getElem_set_self _

lemma getD_set_other {α : Type} (l : List α) (i j : Nat) (a d : α) (h : i ≠ j) :
    (l.set i a).getD j d = l.getD j d := by
  by_cases hj : j < l.length
  · rw [List.getD_eq_getElem _ _ (by simpa using hj), List.getD_eq_getElem _ _ hj]
    exact List.getElem_set_ne h ..
  · rw [List.getD_eq_default _ _ (by simpa using Nat.le_of_not_lt hj),
      List.getD_eq_default _ _ (Nat.le_of_not_lt hj)]

/-! ### Characterisation of `Entities.insert` adjacency -/

lemma insert_position_length (e : Entities) (w h : Resource) (p : Position) (v : Bool) :
    (e.insert w h p v).position.length = e.position.length + 1 := by
  simp [Entities.insert]

lemma insert_upstream_getD (e : Entities) (w h : Resource) (p : Position) (v : Bool) (i : Nat) :
    (e.insert w h p v).upstream.getD i [] =
      if i < e.position.length then
        (if downCond p (e.position.getD i posD) then
          e.upstream.getD i [] ++ [e.position.length]
         else e.upstream.getD i [])
      else if i = e.position.length then newUpstream e p
      else [] := by
  show (((List.range e.position.length).map _) ++ [newUpstream e p]).getD i [] = _
  by_cases h1 : i < e.position.length
  · rw [List.getD_append _ _ _ _ (by simpa using h1),
      List.getD_eq_getElem _ _ (by simpa using h1)]
    simp [h1]
  · by_cases h2 : i = e.position.length
    · subst h2
      rw [List.getD_append_right _ _ _ _ (by simp)]
      simp [h1]
    · rw [List.getD_eq_default _ _ (by simp; omega)]
      simp [h1, h2]

lemma insert_downstream_getD (e : Entities) (w h : Resource) (p : Position) (v : Bool) (i : Nat) :
    (e.insert w h p v).downstream.getD i [] =
      if i < e.position.length then
        (if upCond p (e.position.getD i posD) then
          e.downstream.getD i [] ++ [e.position.length]
         else e.downstream.getD i [])
      else if i = e.position.length then newDownstream e p
      else [] := by
  show (((List.range e.position.length).map _) ++ [newDownstream e p]).getD i [] = _
  by_cases h1 : i < e.position.length
  · rw [List.getD_append _ _ _ _ (by simpa using h1),
      List.getD_eq_getElem _ _ (by simpa using h1)]
    simp [h1]
  · by_cases h2 : i = e.position.length
    · subst h2
      rw [List.getD_append_right _ _ _ _ (by simp)]
      simp [h1]
    · rw [List.getD_eq_default _ _ (by simp; omega)]
      simp [h1, h2]

lemma mem_newUpstream {e : Entities} {p : Position} {j : Nat} :
    j ∈ newUpstream e p ↔
      j < e.position.length ∧ upCond p (e.position.getD j posD) = true := by
  simp [newUpstream, List.mem_filter, List.mem_range]

lemma mem_newDownstream {e : Entities} {p : Position} {j : Nat} :
    j ∈ newDownstream e p ↔
      j < e.position.length ∧ downCond p (e.position.getD j posD) = true := by
  simp [newDownstream, List.mem_filter, List.mem_range]

lemma mem_insert_upstream (e : Entities) (w h : Resource) (p : Position) (v : Bool)
    (i j : Nat) :
    (j ∈ (e.insert w h p v).upstream.getD i []) ↔
      ((i < e.position.length ∧
          (j ∈ e.upstream.getD i [] ∨
            (j = e.position.length ∧ downCond p (e.position.getD i posD) = true))) ∨
        (i = e.position.length ∧ j < e.position.length ∧
          upCond p (e.position.getD j posD) = true)) := by
  rw [insert_upstream_getD]
  by_cases h1 : i < e.position.length
  · have hne : i ≠ e.position.length := Nat.ne_of_lt h1
    rw [if_pos h1]
    by_cases h2 : downCond p (e.position.getD i posD) = true
    · rw [if_pos h2, List.mem_append, List.mem_singleton]
      constructor
      · rintro (hj | rfl)
        · exact Or.inl ⟨h1, Or.inl hj⟩
        · exact Or.inl ⟨h1, Or.inr ⟨rfl, h2⟩⟩
      · rintro (⟨-, hj | ⟨rfl, -⟩⟩ | ⟨hi, -⟩)
        · exact Or.inl hj
        · exact Or.inr rfl
        · exact absurd hi hne
    · rw [if_neg h2]
      constructor
      · intro hj
        exact Or.inl ⟨h1, Or.inl hj⟩
      · rintro (⟨-, hj | ⟨-, hc⟩⟩ | ⟨hi, -⟩)
        · exact hj
        · exact absurd hc h2
        · exact absurd hi hne
  · rw [if_neg h1]
    by_cases h2 : i = e.position.length
    · subst h2
      rw [if_pos rfl, mem_newUpstream]
      constructor
      · rintro ⟨hj, hc⟩
        exact Or.inr ⟨rfl, hj, hc⟩
      · rintro (⟨hi, -⟩ | ⟨-, hj, hc⟩)
        · exact absurd hi h1
        · exact ⟨hj, hc⟩
    · rw [if_neg h2]
      constructor
      · intro hj
        exact absurd hj (List.not_mem_nil j)
      · rintro (⟨hi, -⟩ | ⟨hi, -⟩)
        · exact absurd hi h1
        · exact absurd hi h2

lemma mem_insert_downstream (e : Entities) (w h : Resource) (p : Position) (v : Bool)
    (i j : Nat) :
    (j ∈ (e.insert w h p v).downstream.getD i []) ↔
      ((i < e.position.length ∧
          (j ∈ e.downstream.getD i [] ∨
            (j = e.position.length ∧ upCond p (e.position.getD i posD) = true))) ∨
        (i = e.position.length ∧ j < e.position.length ∧
          downCond p (e.position.getD j posD) = true)) := by
  rw [insert_downstream_getD]
  by_cases h1 : i < e.position.length
  · have hne : i ≠ e.position.length := Nat.ne_of_lt h1
    rw [if_pos h1]
    by_cases h2 : upCond p (e.position.getD i posD) = true
    · rw [if_pos h2, List.mem_append, List.mem_singleton]
      constructor
      · rintro (hj | rfl)
        · exact Or.inl ⟨h1, Or.inl hj⟩
        · exact Or.inl ⟨h1, Or.inr ⟨rfl, h2⟩⟩
      · rintro (⟨-, hj | ⟨rfl, -⟩⟩ | ⟨hi, -⟩)
        · exact Or.inl hj
        · exact Or.inr rfl
        · exact absurd hi hne
    · rw [if_neg h2]
      constructor
      · intro hj
        exact Or.inl ⟨h1, Or.inl hj⟩
      · rintro (⟨-, hj | ⟨-, hc⟩⟩ | ⟨hi, -⟩)
        · exact hj
        · exact absurd hc h2
        · exact absurd hi hne
  · rw [if_neg h1]
    by_cases h2 : i = e.position.length
    · subst h2
      rw [if_pos rfl, mem_newDownstream]
      constructor
      · rintro ⟨hj, hc⟩
        exact Or.inr ⟨rfl, hj, hc⟩
      · rintro (⟨hi, -⟩ | ⟨-, hj, hc⟩)
        · exact absurd hi h1
        · exact ⟨hj, hc⟩
    · rw [if_neg h2]
      constructor
      · intro hj
        exact absurd hj (List.not_mem_nil j)
      · rintro (⟨hi, -⟩ | ⟨hi, -⟩)
        · exact absurd hi h1
        · exact absurd hi h2

/-! ### The adjacency invariant and its preservation -/

/-- Both adjacency lists only hold in-range entity indices. -/
def boundedAdj (e : Entities) : Prop :=
  (∀ i, ∀ j ∈ e.upstream.getD i [], j < e.position.length) ∧
  (∀ i, ∀ j ∈ e.downstream.getD i [], j < e.position.length)

/-- Adjacency is symmetric: `j` is upstream of `i` iff `i` is downstream
of `j`. -/
def symAdj (e : Entities) : Prop :=
  ∀ i j, j ∈ e.upstream.getD i [] ↔ i ∈ e.downstream.getD j []

/-- The graph invariant maintained by `insert`. -/
def Entities.Inv (e : Entities) : Prop := boundedAdj e ∧ symAdj e

lemma inv_new : Entities.new.Inv := by
  refine ⟨⟨?_, ?_⟩, ?_⟩ <;> intro i j <;> simp [Entities.new, List.getD]

lemma inv_insert (e : Entities) (hInv : e.Inv) (w h : Resource) (p : Position) (v : Bool) :
    (e.insert w h p v).Inv := by
  obtain ⟨⟨bu, bd⟩, sym⟩ := hInv
  refine ⟨⟨?_, ?_⟩, ?_⟩
  · intro i j hj
    rw [mem_insert_upstream] at hj
    rw [insert_position_length]
    rcases hj with ⟨hi, hj | ⟨rfl, -⟩⟩ | ⟨-, hj, -⟩
    · exact Nat.lt_succ_of_lt (bu i j hj)
    · exact Nat.lt_succ_self _
    · exact Nat.lt_succ_of_lt hj
  · intro i j hj
    rw [mem_insert_downstream] at hj
    rw [insert_position_length]
    rcases hj with ⟨hi, hj | ⟨rfl, -⟩⟩ | ⟨-, hj, -⟩
    · exact Nat.lt_succ_of_lt (bd i j hj)
    · exact Nat.lt_succ_self _
    · exact Nat.lt_succ_of_lt hj
  · intro i j
    rw [mem_insert_upstream, mem_insert_downstream]
    constructor
    · rintro (⟨hi, hj | ⟨rfl, hc⟩⟩ | ⟨rfl, hj, hc⟩)
      · exact Or.inl ⟨bu i j hj, Or.inl ((sym i j).mp hj)⟩
      · exact Or.inr ⟨rfl, hi, hc⟩
      · exact Or.inl ⟨hj, Or.inr ⟨rfl, hc⟩⟩
    · rintro (⟨hj, hi | ⟨rfl, hc⟩⟩ | ⟨rfl, hi, hc⟩)
      · exact Or.inl ⟨bd j i hi, Or.inl ((sym i j).mpr hi)⟩
      · exact Or.inr ⟨rfl, hj, hc⟩
      · exact Or.inl ⟨hi, Or.inr ⟨rfl, hc⟩⟩

lemma inv_foldl : ∀ (l : List InsertArgs) (e : Entities), e.Inv →
    (l.foldl (fun e a => e.insert a.wants a.has a.pos a.vis) e).Inv
  | [], _, hInv => hInv
  | a :: l, e, hInv =>
    inv_foldl l _ (inv_insert e hInv a.wants a.has a.pos a.vis)

lemma inv_buildEntities (l : List InsertArgs) : (buildEntities l).Inv :=
  inv_foldl l Entities.new inv_new

/-! ### Helper lemmas about `Resource` operations and `transferStep` -/

lemma pcmpAA (a b : Nat) : Resource.pcmp (.A a) (.A b) = some (compare a b) := rfl

lemma geA_eq (a b : Nat) : Resource.ge (.A a) (.A b) = decide (b ≤ a) := by
  unfold Resource.ge
  rw [pcmpAA]
  rcases Nat.lt_trichotomy a b with h | rfl | h
  · rw [Nat.compare_eq_lt.mpr h]
    simp [Nat.not_le.mpr h]
  · rw [Nat.compare_eq_eq.mpr rfl]
    simp
  · rw [Nat.compare_eq_gt.mpr h]
    simp [Nat.le_of_lt h]

lemma bneA (a b : Nat) : (Resource.A a != Resource.A b) = !(a == b) := rfl

/-- The saturation check guards every single transfer: a sink holding
exactly `Resource::A(u8::MAX)` makes `transferStep` a no-op. -/
lemma transferStep_saturated (wants : List Resource) (i : Nat) (has : List Resource) (u : Nat)
    (h : has.getD i resD = Resource.A u8MAX) :
    transferStep wants i has u = some has := by
  unfold transferStep
  rw [h, if_neg (by decide)]
  rfl

/-! ### Claim C1 -/

/-- Claim C1 (amended): during `update()`, the pre-transfer saturation
check compares the sink's holding against `Resource::A(u8::MAX)`
specifically.  Once `has[i]` equals `Resource::A(255)` at the moment a
transfer would be applied, no transfer into `i` occurs for the remainder
of that tick's processing of `i` (here: the whole remaining upstream
list `ups` leaves `has` untouched).  The guarantee holds for kind-`A`
holdings only, not for holdings of any resource kind. -/
theorem saturated_sink_skip (wants : List Resource) (i : Nat) (ups : List Nat)
    (has : List Resource) (h : has.getD i resD = Resource.A u8MAX) :
    updateEntity wants ups i has = some has := by
  induction ups with
  | nil => rfl
  | cons u ups ih =>
    show ((u :: ups).foldlM (fun h u => transferStep wants i h u) has) = some has
    rw [List.foldlM_cons, transferStep_saturated wants i has u h]
    exact ih

theorem saturated_sink_skip_witness :
    ([Resource.A 255] : List Resource).getD 0 resD = Resource.A u8MAX ∧
      updateEntity [] [1, 2] 0 [Resource.A 255] = some [Resource.A 255] :=
  ⟨rfl, saturated_sink_skip [] 0 [1, 2] [Resource.A 255] rfl⟩

/-- Claim C1 counterexample: a kind-`B` sink whose magnitude is already
the maximum 255 is *not* skipped — the check `has[i] != Resource::A(u8::MAX)`
is true for `Resource::B(255)`, so the transfer fires and drains the
upstream neighbor from `B(5)` to `B(4)` while the sink stays clamped. -/
theorem saturated_sink_skip_kindB_counterexample :
    (buildEntities [⟨Resource.B 1, Resource.B 5, (1, 1), true⟩,
        ⟨Resource.B 1, Resource.B 255, (1, 2), true⟩]).has.getD 1 resD = Resource.B u8MAX ∧
      ((buildEntities [⟨Resource.B 1, Resource.B 5, (1, 1), true⟩,
          ⟨Resource.B 1, Resource.B 255, (1, 2), true⟩]).update).map Entities.has =
        some [Resource.B 4, Resource.B 255] := by
  constructor <;> decide

/-! ### Claim C2 -/

/-- Claim C2 (amended): in the partial-availability case the whole of
`has[u]` is added to `has[i]`, and `has[u]` is then set to the literal
`Resource::A(0)` — the kind-`A` zero — regardless of the kind `has[u]`
previously held.  The zero is kind-preserving only when `has[u]` was of
kind `A`. -/
theorem partial_transfer_sets_source_A0 (wants : List Resource) (i u : Nat)
    (has : List Resource) (a : Resource)
    (h1 : (has.getD i resD != Resource.A u8MAX) = true)
    (h2 : (has.getD u resD).ge (wants.getD i resD) = false)
    (h3 : Resource.add (has.getD i resD) (has.getD u resD) = some a) :
    transferStep wants i has u = some ((has.set i a).set u (Resource.A 0)) := by
  unfold transferStep
  rw [if_pos h1, if_neg (by rw [h2]; exact Bool.false_ne_true)]
  show (Resource.add (has.getD i resD) (has.getD u resD) >>= fun a =>
      pure ((has.set i a).set u (Resource.A 0))) =
    some ((has.set i a).set u (Resource.A 0))
  rw [h3]
  rfl

theorem partial_transfer_sets_source_A0_witness :
    transferStep [Resource.A 0, Resource.A 5] 1 [Resource.A 3, Resource.A 10] 0 =
      some (([Resource.A 3, Resource.A 10].set 1 (Resource.A 13)).set 0 (Resource.A 0)) :=
  partial_transfer_sets_source_A0 [Resource.A 0, Resource.A 5] 1 0
    [Resource.A 3, Resource.A 10] (Resource.A 13) (by decide) (by decide) (by decide)

/-- Claim C2 counterexample: a kind-`B` upstream holding drained by a
partial transfer ends as `Resource::A(0)`, a zero of a *different* kind
than the `Resource::B(3)` it previously held. -/
theorem partial_transfer_kind_counterexample :
    (buildEntities [⟨Resource.B 0, Resource.B 3, (1, 1), true⟩,
        ⟨Resource.B 5, Resource.B 10, (1, 2), true⟩]).has.getD 0 resD = Resource.B 3 ∧
      ((buildEntities [⟨Resource.B 0, Resource.B 3, (1, 1), true⟩,
          ⟨Resource.B 5, Resource.B 10, (1, 2), true⟩]).update).map Entities.has =
        some [Resource.A 0, Resource.B 13] ∧
      Resource.sameKind (Resource.A 0) (Resource.B 3) = false := by
  refine ⟨by decide, by decide, by decide⟩

/-! ### Claim C3 -/

/-- Claim C3 (amended): provided the sink does not saturate — the
pre-transfer magnitude `hi` plus the transferred amount stays within
`u8::MAX` — each individual transfer moves exactly `min has[u] wants[i]`:
the sink's holding increases by precisely the amount the source's holding
decreases.  When `has[u] ≥ wants[i]` that amount is `wants[i]` (full
transfer); otherwise it is all of `has[u]`, leaving the source at exactly
zero.  Without the no-saturation hypothesis the sink's increase can be
strictly smaller than the source's decrease (see the counterexample). -/
theorem transfer_conservation (wants has : List Resource) (i u : Nat) (hi hu w : Nat)
    (hne : i ≠ u) (hilt : i < has.length) (hult : u < has.length)
    (hhi : has.getD i resD = Resource.A hi) (hhu : has.getD u resD = Resource.A hu)
    (hw : wants.getD i resD = Resource.A w) (hmax : hi ≠ u8MAX)
    (hsat : hi + min hu w ≤ u8MAX) :
    ∃ has', transferStep wants i has u = some has' ∧
      has'.getD i resD = Resource.A (hi + min hu w) ∧
      has'.getD u resD = Resource.A (hu - min hu w) := by
  have hune : u ≠ i := fun hh => hne hh.symm
  by_cases hle : w ≤ hu
  · have hminw : min hu w = w := Nat.min_eq_right hle
    rw [hminw] at hsat ⊢
    have hadd : satAdd hi w = hi + w := Nat.min_eq_left hsat
    have key : transferStep wants i has u =
        some ((has.set i (Resource.A (satAdd hi w))).set u (Resource.A (satSub hu w))) := by
      unfold transferStep
      rw [hhi, hhu, hw, if_pos (by rw [bneA]; simp [hmax]),
        if_pos (by rw [geA_eq]; exact decide_eq_true hle)]
      show (Resource.sub ((has.set i (Resource.A (satAdd hi w))).getD u resD)
            (Resource.A w) >>= fun s =>
          pure ((has.set i (Resource.A (satAdd hi w))).set u s)) = _
      rw [getD_set_other has i u (Resource.A (satAdd hi w)) resD hne, hhu]
      rfl
    refine ⟨_, key, ?_, ?_⟩
    · rw [getD_set_other _ u i _ resD hune, getD_set_self has i _ resD hilt, hadd]
    · rw [getD_set_self _ u _ resD (by rw [List.length_set]; exact hult)]
      rfl
  · have hlt : hu < w := Nat.lt_of_not_le hle
    have hminu : min hu w = hu := Nat.min_eq_left (Nat.le_of_lt hlt)
    rw [hminu] at hsat ⊢
    have hadd : satAdd hi hu = hi + hu := Nat.min_eq_left hsat
    have key : transferStep wants i has u =
        some ((has.set i (Resource.A (satAdd hi hu))).set u (Resource.A 0)) := by
      unfold transferStep
      rw [hhi, hhu, hw, if_pos (by rw [bneA]; simp [hmax]),
        if_neg (by rw [geA_eq]; simp [hle])]
      rfl
    refine ⟨_, key, ?_, ?_⟩
    · rw [getD_set_other _ u i _ resD hune, getD_set_self has i _ resD hilt, hadd]
    · rw [getD_set_self _ u _ resD (by rw [List.length_set]; exact hult), Nat.sub_self]

theorem transfer_conservation_witness :
    ∃ has', transferStep [Resource.A 0, Resource.A 5] 1 [Resource.A 10, Resource.A 100] 0 =
        some has' ∧
      has'.getD 1 resD = Resource.A (100 + min 10 5) ∧
      has'.getD 0 resD = Resource.A (10 - min 10 5) :=
  transfer_conservation [Resource.A 0, Resource.A 5] [Resource.A 10, Resource.A 100] 1 0
    100 10 5 (by decide) (by decide) (by decide) rfl rfl rfl (by decide) (by decide)

/-- Claim C3 counterexample: with the sink at `A(254)` and `wants = A(5)`,
the full-transfer case fires (`A(10) ≥ A(5)`, sink not at 255), the source
loses exactly 5, but the sink saturates at 255 and gains only 1 — the
per-transfer conservation `Δhas[i] = -Δhas[u] = wants[i]` fails. -/
theorem transfer_conservation_saturation_counterexample :
    transferStep [Resource.A 0, Resource.A 5] 1 [Resource.A 10, Resource.A 254] 0 =
      some [Resource.A 5, Resource.A 255] ∧
      (Resource.A 255).mag - (Resource.A 254).mag ≠ (Resource.A 5).mag := by
  constructor <;> decide

/-! ### Claim C4 -/

/-- Claim C4 (amended): for the reference scenario, after a single
`update()` the entity at `(1,2)` — index 1, already holding the maximum
`A(255)` — pulls nothing, so the entity at `(1,1)` keeps its holding of
100; the golden holdings under the single-pass increasing-index rule are
`[100, 253, 64, 189, 5]`. -/
theorem scenario_golden_values :
    ((buildEntities scenarioInserts).update).map Entities.has =
      some [Resource.A 100, Resource.A 253, Resource.A 64, Resource.A 189, Resource.A 5] := by
  decide

/-- Claim C4 counterexample: the entity at `(1,1)` (index 0) still holds
100 after one `update()`, not the 99 the claim predicts — index 1 is
saturated at `A(255)` and never pulls. -/
theorem scenario_first_entity_counterexample :
    ((buildEntities scenarioInserts).update).map (fun e => e.has.getD 0 resD) =
        some (Resource.A 100) ∧
      Resource.A 100 ≠ Resource.A 99 := by
  constructor <;> decide

/-! ### Claim C5 -/

/-- Claim C5: after any sequence of insertions starting from the empty
collection, adjacency is symmetric: `j` is in `i`'s upstream set iff `i`
is in `j`'s downstream set, and `j` is in `i`'s downstream set iff `i` is
in `j`'s upstream set. -/
theorem adjacency_symmetry (l : List InsertArgs) (i j : Nat) :
    (j ∈ (buildEntities l).upstream.getD i [] ↔
        i ∈ (buildEntities l).downstream.getD j []) ∧
      (j ∈ (buildEntities l).downstream.getD i [] ↔
        i ∈ (buildEntities l).upstream.getD j []) :=
  ⟨(inv_buildEntities l).2 i j, ((inv_buildEntities l).2 j i).symm⟩

/-! ### Claim C6 -/

/-- Claim C6: immediately after any insert, every index contained in the
newly-inserted entity's own upstream and downstream sets is strictly less
than the new entity's own index `e.position.length`; in particular the new
entity's own index never appears in its own sets at insertion time. -/
theorem backward_edge_guarantee (e : Entities) (w h : Resource) (p : Position) (v : Bool) :
    (∀ j ∈ (e.insert w h p v).upstream.getD e.position.length [], j < e.position.length) ∧
      (∀ j ∈ (e.insert w h p v).downstream.getD e.position.length [], j < e.position.length) := by
  constructor
  · intro j hj
    rw [mem_insert_upstream] at hj
    rcases hj with ⟨hlt, -⟩ | ⟨-, hj, -⟩
    · exact absurd hlt (lt_irrefl _)
    · exact hj
  · intro j hj
    rw [mem_insert_downstream] at hj
    rcases hj with ⟨hlt, -⟩ | ⟨-, hj, -⟩
    · exact absurd hlt (lt_irrefl _)
    · exact hj

theorem backward_edge_guarantee_witness :
    3 ∈ ((buildEntities (scenarioInserts.take 4)).insert (Resource.A 5) (Resource.A 0)
        (3, 3) true).upstream.getD
        ((buildEntities (scenarioInserts.take 4)).position.length) [] ∧
      3 < (buildEntities (scenarioInserts.take 4)).position.length :=
  ⟨by decide, (backward_edge_guarantee (buildEntities (scenarioInserts.take 4))
    (Resource.A 5) (Resource.A 0) (3, 3) true).1 3 (by decide)⟩

/-! ### Claim C7 -/

/-- Claim C7: whenever `update()` completes, it has mutated holdings
only — `wants`, `position`, `visible`, `upstream`, `downstream` and the
entity count are all unchanged. -/
theorem update_mutates_has_only (e e' : Entities) (h : e.update = some e') :
    e'.wants = e.wants ∧ e'.position = e.position ∧ e'.visible = e.visible ∧
      e'.upstream = e.upstream ∧ e'.downstream = e.downstream ∧
      e'.position.length = e.position.length := by
  unfold Entities.update at h
  rcases Option.map_eq_some'.mp h with ⟨hs, -, rfl⟩
  exact ⟨rfl, rfl, rfl, rfl, rfl, rfl⟩

theorem update_mutates_has_only_witness :
    (Entities.new.insert (Resource.A 1) (Resource.A 2) (0, 0) true).update =
        some (Entities.new.insert (Resource.A 1) (Resource.A 2) (0, 0) true) ∧
      (Entities.new.insert (Resource.A 1) (Resource.A 2) (0, 0) true).wants =
        (Entities.new.insert (Resource.A 1) (Resource.A 2) (0, 0) true).wants :=
  ⟨by decide, (update_mutates_has_only _ _ (by decide)).1⟩

/-! ### Claim C8 -/

/-- Claim C8: resource arithmetic saturates instead of wrapping: for
same-kind operands within bounds, `add` stays at or below the maximum
magnitude, `sub` stays at or above zero, and `sub a a` is the zero of
`a`'s kind. -/
theorem resource_saturation (a b : Resource) (hk : Resource.sameKind a b = true)
    (ha : a.mag ≤ u8MAX) (hb : b.mag ≤ u8MAX) :
    (∃ c, Resource.add a b = some c ∧ c.mag ≤ u8MAX) ∧
      (∃ d, Resource.sub a b = some d ∧ 0 ≤ d.mag) ∧
      Resource.sub a a = some a.zeroOfKind := by
  rcases a with n | n <;> rcases b with m | m <;>
    simp_all [Resource.sameKind, Resource.add, Resource.sub, Resource.mag,
      Resource.zeroOfKind, satAdd, satSub, u8MAX]

theorem resource_saturation_witness :
    (∃ c, Resource.add (Resource.A 200) (Resource.A 100) = some c ∧ c.mag ≤ u8MAX) ∧
      (∃ d, Resource.sub (Resource.A 3) (Resource.A 7) = some d ∧ 0 ≤ d.mag) ∧
      Resource.sub (Resource.A 3) (Resource.A 3) = some (Resource.A 3).zeroOfKind :=
  ⟨(resource_saturation (Resource.A 200) (Resource.A 100) rfl (by decide) (by decide)).1,
   (resource_saturation (Resource.A 3) (Resource.A 7) rfl (by decide) (by decide)).2.1,
   (resource_saturation (Resource.A 3) (Resource.A 7) rfl (by decide) (by decide)).2.2⟩

/-! ### Claim C9 -/

/-- Claim C9: `add` and `sub` abort with the kind-mismatch panic (modelled
as `none`) exactly when the operands' kinds differ, and for same-kind
operands they succeed with a result of the shared kind. -/
theorem resource_kind_mismatch (a b : Resource) :
    (Resource.sameKind a b = false →
        Resource.add a b = none ∧ Resource.sub a b = none) ∧
      (Resource.sameKind a b = true →
        ∃ c d, Resource.add a b = some c ∧ Resource.sub a b = some d ∧
          Resource.sameKind c a = true ∧ Resource.sameKind d a = true) := by
  rcases a with n | n <;> rcases b with m | m
  · exact ⟨fun hc => absurd hc (by simp [Resource.sameKind]),
      fun _ => ⟨_, _, rfl, rfl, rfl, rfl⟩⟩
  · exact ⟨fun _ => ⟨rfl, rfl⟩, fun hc => absurd hc (by simp [Resource.sameKind])⟩
  · exact ⟨fun _ => ⟨rfl, rfl⟩, fun hc => absurd hc (by simp [Resource.sameKind])⟩
  · exact ⟨fun hc => absurd hc (by simp [Resource.sameKind]),
      fun _ => ⟨_, _, rfl, rfl, rfl, rfl⟩⟩

theorem resource_kind_mismatch_witness :
    (Resource.add (Resource.A 1) (Resource.B 2) = none ∧
        Resource.sub (Resource.A 1) (Resource.B 2) = none) ∧
      (∃ c d, Resource.add (Resource.A 1) (Resource.A 2) = some c ∧
        Resource.sub (Resource.A 1) (Resource.A 2) = some d ∧
        Resource.sameKind c (Resource.A 1) = true ∧
        Resource.sameKind d (Resource.A 1) = true) :=
  ⟨(resource_kind_mismatch (Resource.A 1) (Resource.B 2)).1 rfl,
   (resource_kind_mismatch (Resource.A 1) (Resource.A 2)).2 rfl⟩

/-! ### Claim C10 -/

/-- Claim C10 (amended): cross-kind comparison is total and never a
failure, but it does *not* return "no ordering": the derived comparison
orders by variant declaration order, so every kind-`A` value compares
below every kind-`B` value.  Hence `A(x) >= B(y)` is `false` (in
`update()` a kind-`A` `has[u]` against a kind-`B` `wants[i]` silently
selects the partial-transfer branch) while `B(y) >= A(x)` is `true` (a
kind-`B` `has[u]` against a kind-`A` `wants[i]` selects the full-transfer
branch). -/
theorem cross_kind_comparison (x y : Nat) :
    Resource.pcmp (Resource.A x) (Resource.B y) = some Ordering.lt ∧
      Resource.pcmp (Resource.B y) (Resource.A x) = some Ordering.gt ∧
      Resource.ge (Resource.A x) (Resource.B y) = false ∧
      Resource.ge (Resource.B y) (Resource.A x) = true :=
  ⟨rfl, rfl, rfl, rfl⟩

/-- Claim C10 counterexample: the claim asserts both cross-kind `>=`
comparisons are false; but `B(0) >= A(255)` evaluates to `true` under the
derived variant-order comparison. -/
theorem cross_kind_comparison_counterexample :
    Resource.ge (Resource.B 0) (Resource.A 255) = true := by
  decide
